import Mathlib

/-
Verification development for the module directory watcher
(Libs/CommandLineModules/Core/ctkCmdLineModuleDirectoryWatcher.cpp).

Shallow embedding conventions:
* QString path values are Lean String values. Paths are taken to be in
  canonical absolute form already, so QDir::absolutePath and
  QFileInfo::absoluteFilePath act as identities, and QFileInfo::absolutePath
  (the parent directory of a file path) is the abstract parentDir field of
  the FileSystem record below.
* The filesystem observed through QDir is an explicit FileSystem record:
  which directories exist, and which executable files a directory scan
  (QDir::entryInfoList with Files, NoDotAndDotDot and Executable) returns.
* The external ctkCmdLineModuleManager is modelled by a RegisterOracle
  giving the outcome of registerModule at each location (some handle on
  success, none when it throws), together with an explicit map of
  currently registered modules that moduleReference consults,
  registerModule extends on success and unregisterModule shrinks.
* The QHash member MapFileNameToReference is an association list RefMap
  with operations refLookup, refInsert, refErase and refKeys modelling
  QHash::value, the operator-bracket assignment, remove and keys.
* The QFileSystemWatcher path sets are the watchedDirs and watchedFiles
  fields of WatcherState; directories() and files() read them and
  updateWatchedPaths replaces them wholesale.
* QtConcurrent::blockingMapped is a blocking batch returning one result
  per input element in input order; it is embedded as a left-to-right
  traversal threading the shared manager state.
* Debug logging has no observable effect on the state and is omitted.
-/

namespace CTKWatcher

/-- A module handle; ctkCmdLineModuleReference is opaque here and an
invalid (default constructed) reference is represented by none. -/
abbrev ModuleRef := Nat

/-- Outcome of ctkCmdLineModuleManager::registerModule at each location:
some handle on success, none when registerModule throws. -/
abbrev RegisterOracle := String → Option ModuleRef

/-- Association list from file location to module reference (QHash). -/
abbrev RefMap := List (String × ModuleRef)

/-- QHash lookup. -/
def refLookup : RefMap → String → Option ModuleRef
  | [], _ => none
  | (a, v) :: rest, k => if k = a then some v else refLookup rest k

/-- QHash::remove. -/
def refErase : RefMap → String → RefMap
  | [], _ => []
  | (a, v) :: rest, k =>
    if a = k then refErase rest k else (a, v) :: refErase rest k

/-- QHash operator-bracket assignment (insert or replace). -/
def refInsert (m : RefMap) (k : String) (v : ModuleRef) : RefMap :=
  (k, v) :: refErase m k

/-- QHash::keys. -/
def refKeys (m : RefMap) : List String :=
  m.map Prod.fst

/-- The filesystem as observed by the watcher code through QDir and
QFileInfo. -/
structure FileSystem where
  dirExists : String → Bool
  execsInDir : String → List String
  parentDir : String → String

/-- The mutable state of ctkCmdLineModuleDirectoryWatcherPrivate together
with the path sets of its QFileSystemWatcher and the registered-module map
of the shared ctkCmdLineModuleManager. -/
structure WatcherState where
  watchedDirs : List String
  watchedFiles : List String
  MapFileNameToReference : RefMap
  managerModules : RefMap

/-- AddModule::operator(): registerModule through the oracle; any exception
is caught and becomes an invalid reference; a success is recorded in the
manager. -/
def AddModule (o : RegisterOracle) (mgr : RefMap) (moduleLocation : String) :
    Option ModuleRef × RefMap :=
  match o moduleLocation with
  | some h => (some h, refInsert mgr moduleLocation h)
  | none => (none, mgr)

/-- RemoveModule::operator(): ask the manager for its reference at the
location; when the manager has one, unregister it. -/
def RemoveModule (mgr : RefMap) (moduleLocation : String) : Bool × RefMap :=
  match refLookup mgr moduleLocation with
  | some _ => (true, refErase mgr moduleLocation)
  | none => (false, mgr)

/-- QtConcurrent::blockingMapped over AddModule: one result per input, in
input order, threading the shared manager map. -/
def runAddModules (o : RegisterOracle) :
    List String → RefMap → List (Option ModuleRef) × RefMap
  | [], mgr => ([], mgr)
  | e :: rest, mgr =>
    let r := AddModule o mgr e
    let rs := runAddModules o rest r.2
    (r.1 :: rs.1, rs.2)

/-- QtConcurrent::blockingMapped over RemoveModule (results discarded). -/
def runRemoveModules : List String → RefMap → RefMap
  | [], mgr => mgr
  | e :: rest, mgr => runRemoveModules rest (RemoveModule mgr e).2

/-- The fold-back loop of loadModules: only valid references are stored in
MapFileNameToReference. -/
def applyLoads : List (String × Option ModuleRef) → RefMap → RefMap
  | [], m => m
  | (e, some h) :: rest, m => applyLoads rest (refInsert m e h)
  | (_, none) :: rest, m => applyLoads rest m

/-- The removal loop of unloadModules: every listed location is removed
from MapFileNameToReference. -/
def eraseAll : List String → RefMap → RefMap
  | [], m => m
  | e :: rest, m => eraseAll rest (refErase m e)

/-- ctkCmdLineModuleDirectoryWatcherPrivate::loadModules. -/
def loadModules (o : RegisterOracle) (executables : List String)
    (st : WatcherState) : List (Option ModuleRef) × WatcherState :=
  let r := runAddModules o executables st.managerModules
  let m := applyLoads (executables.zip r.1) st.MapFileNameToReference
  (r.1, { st with managerModules := r.2, MapFileNameToReference := m })

/-- ctkCmdLineModuleDirectoryWatcherPrivate::unloadModules. -/
def unloadModules (executables : List String) (st : WatcherState) :
    WatcherState :=
  { st with
    managerModules := runRemoveModules executables st.managerModules
    MapFileNameToReference := eraseAll executables st.MapFileNameToReference }

/-- QString::trimmed().isEmpty(): the trimmed string is empty exactly when
every character of the string is whitespace. -/
def trimmedEmpty (s : String) : Bool :=
  s.toList.all Char.isWhitespace

/-- ctkCmdLineModuleDirectoryWatcherPrivate::filterInvalidDirectories.
A null QString is empty, so the isNull test is subsumed by isEmpty. -/
def filterInvalidDirectories (fs : FileSystem) (directories : List String) :
    List String :=
  directories.filter
    (fun path => !path.isEmpty && !trimmedEmpty path && fs.dirExists path)

/-- ctkCmdLineModuleDirectoryWatcherPrivate::extractCurrentlyWatchedFilenamesInDirectory. -/
def extractCurrentlyWatchedFilenamesInDirectory (fs : FileSystem)
    (st : WatcherState) (path : String) : List String :=
  if fs.dirExists path then
    (refKeys st.MapFileNameToReference).filter
      (fun fileName => fs.parentDir fileName == path)
  else []

/-- ctkCmdLineModuleDirectoryWatcherPrivate::getExecutablesInDirectory. -/
def getExecutablesInDirectory (fs : FileSystem) (path : String) :
    List String :=
  if fs.dirExists path then fs.execsInDir path else []

/-- The two loops of setModuleReferences computing modulesToUnload and
modulesToLoad; the first component is the unload batch, the second the
load batch, in the order the source appends to them. -/
def moduleReferencesDiff (fs : FileSystem) (st : WatcherState)
    (directories : List String) : List String × List String :=
  let currentlyWatchedDirectories := st.watchedDirs
  let removedDirUnloads :=
    (currentlyWatchedDirectories.filter
        (fun path => !directories.contains path)).flatMap
      (fun path => extractCurrentlyWatchedFilenamesInDirectory fs st path)
  let staleFileUnloads := directories.flatMap (fun path =>
    if currentlyWatchedDirectories.contains path then
      (extractCurrentlyWatchedFilenamesInDirectory fs st path).filter
        (fun executable =>
          !(getExecutablesInDirectory fs path).contains executable)
    else [])
  let newFileLoads := directories.flatMap (fun path =>
    if currentlyWatchedDirectories.contains path then
      (getExecutablesInDirectory fs path).filter
        (fun executable =>
          !(extractCurrentlyWatchedFilenamesInDirectory fs st path).contains
            executable)
    else getExecutablesInDirectory fs path)
  (removedDirUnloads ++ staleFileUnloads, newFileLoads)

/-- ctkCmdLineModuleDirectoryWatcherPrivate::setModuleReferences: compute
the diff, then unload, then load. -/
def setModuleReferences (fs : FileSystem) (o : RegisterOracle)
    (directories : List String) (st : WatcherState) : WatcherState :=
  let diff := moduleReferencesDiff fs st directories
  (loadModules o diff.2 (unloadModules diff.1 st)).2

/-- The directory list updateModuleReferences passes to
setModuleReferences: the currently watched directories with the changed
directory appended when it is not yet among them. -/
def updateModuleReferencesDirs (st : WatcherState) (directory : String) :
    List String :=
  if st.watchedDirs.contains directory then st.watchedDirs
  else st.watchedDirs ++ [directory]

/-- ctkCmdLineModuleDirectoryWatcherPrivate::updateModuleReferences. -/
def updateModuleReferences (fs : FileSystem) (o : RegisterOracle)
    (directory : String) (st : WatcherState) : WatcherState :=
  setModuleReferences fs o (updateModuleReferencesDirs st directory) st

/-- ctkCmdLineModuleDirectoryWatcherPrivate::updateWatchedPaths: remove all
currently watched paths from the QFileSystemWatcher and add the given
directories and files. -/
def updateWatchedPaths (directories files : List String)
    (st : WatcherState) : WatcherState :=
  { st with watchedDirs := directories, watchedFiles := files }

/-- ctkCmdLineModuleDirectoryWatcherPrivate::setDirectories. -/
def setDirectories (fs : FileSystem) (o : RegisterOracle)
    (directories : List String) (st : WatcherState) : WatcherState :=
  let validDirectories := filterInvalidDirectories fs directories
  let st' := setModuleReferences fs o validDirectories st
  updateWatchedPaths validDirectories
    (refKeys st'.MapFileNameToReference) st'

/-- The unload and load batches a call to setDirectories dispatches from
state st. -/
def setDirectoriesBatches (fs : FileSystem) (st : WatcherState)
    (directories : List String) : List String × List String :=
  moduleReferencesDiff fs st (filterInvalidDirectories fs directories)

/-- ctkCmdLineModuleDirectoryWatcherPrivate::onFileChanged. -/
def onFileChanged (o : RegisterOracle) (path : String) (st : WatcherState) :
    WatcherState :=
  (loadModules o [path] st).2

/-- The front element of the reference list onFileChanged reads from the
result of loadModules. -/
def onFileChangedFront (o : RegisterOracle) (path : String)
    (st : WatcherState) : Option (Option ModuleRef) :=
  (loadModules o [path] st).1.head?

/-- ctkCmdLineModuleDirectoryWatcherPrivate::onDirectoryChanged. -/
def onDirectoryChanged (fs : FileSystem) (o : RegisterOracle) (path : String)
    (st : WatcherState) : WatcherState :=
  if (filterInvalidDirectories fs [path]).length > 0 then
    updateModuleReferences fs o path st
  else st

/-- Erasing a key then looking up: the erased key is gone, others are
untouched. -/
theorem refLookup_refErase (m : RefMap) (k k' : String) :
    refLookup (refErase m k) k' = if k' = k then none else refLookup m k' := by
  induction m with
  | nil => by_cases h : k' = k <;> simp [refErase, refLookup, h]
  | cons kv rest ih =>
    rcases kv with ⟨a, v⟩
    by_cases hak : a = k <;> by_cases hk : k' = a <;>
      by_cases hkk : k' = k <;> simp_all [refErase, refLookup]

/-- Inserting a key then looking up: the inserted key has the new value,
others are untouched. -/
theorem refLookup_refInsert (m : RefMap) (k : String) (v : ModuleRef)
    (k' : String) :
    refLookup (refInsert m k v) k' =
      if k' = k then some v else refLookup m k' := by
  by_cases hk : k' = k <;>
    simp [refInsert, refLookup, hk, refLookup_refErase]

/-- A key is among the keys of the map exactly when its lookup succeeds. -/
theorem refLookup_isSome_iff (m : RefMap) (k : String) :
    (refLookup m k).isSome = true ↔ k ∈ refKeys m := by
  induction m with
  | nil => simp [refLookup, refKeys]
  | cons kv rest ih =>
    rcases kv with ⟨a, v⟩
    by_cases h : k = a <;> simp [refLookup, refKeys, h, ih]

/-- blockingMapped over AddModule returns exactly the per-element oracle
outcomes, in input order: one attempt per input, independent results. -/
theorem runAddModules_fst (o : RegisterOracle) (l : List String)
    (mgr : RefMap) : (runAddModules o l mgr).1 = l.map o := by
  induction l generalizing mgr with
  | nil => simp [runAddModules]
  | cons e rest ih =>
    cases h : o e <;> simp [runAddModules, AddModule, h, ih]

/-- The fold-back loop ignores locations that are not in the batch. -/
theorem applyLoads_not_mem (o : RegisterOracle) (l : List String)
    (m : RefMap) (p : String) (hp : p ∉ l) :
    refLookup (applyLoads (l.zip (l.map o)) m) p = refLookup m p := by
  induction l generalizing m with
  | nil => simp [applyLoads]
  | cons e rest ih =>
    have hpe : p ≠ e := fun h => hp (h ▸ List.mem_cons_self e rest)
    have hprest : p ∉ rest := fun h => hp (List.mem_cons_of_mem e h)
    cases h : o e <;>
      simp [applyLoads, h, ih _ hprest, refLookup_refInsert, hpe]

/-- The fold-back loop leaves a location untouched when its registration
attempt failed, even when the location is in the batch. -/
theorem applyLoads_none (o : RegisterOracle) (l : List String) (m : RefMap)
    (p : String) (ho : o p = none) :
    refLookup (applyLoads (l.zip (l.map o)) m) p = refLookup m p := by
  induction l generalizing m with
  | nil => simp [applyLoads]
  | cons e rest ih =>
    by_cases hpe : p = e
    · subst hpe
      simp [applyLoads, ho, ih]
    · cases h : o e <;>
        simp [applyLoads, h, ih, refLookup_refInsert, hpe]

/-- The fold-back loop stores the new reference for every location of the
batch whose registration attempt succeeded. -/
theorem applyLoads_some (o : RegisterOracle) (l : List String) (m : RefMap)
    (p : String) (h : ModuleRef) (hp : p ∈ l) (ho : o p = some h) :
    refLookup (applyLoads (l.zip (l.map o)) m) p = some h := by
  induction l generalizing m with
  | nil => simp at hp
  | cons e rest ih =>
    by_cases hprest : p ∈ rest
    · cases he : o e <;> simp [applyLoads, he, ih _ hprest]
    · have hpe : p = e := by
        rcases List.mem_cons.mp hp with h1 | h1
        · exact h1
        · exact absurd h1 hprest
      subst hpe
      simp [applyLoads, ho, applyLoads_not_mem o rest _ p hprest,
        refLookup_refInsert]

/-- The removal loop of unloadModules erases exactly the listed locations. -/
theorem refLookup_eraseAll (l : List String) (m : RefMap) (p : String) :
    refLookup (eraseAll l m) p = if p ∈ l then none else refLookup m p := by
  induction l generalizing m with
  | nil => simp [eraseAll]
  | cons e rest ih =>
    by_cases hpe : p = e
    · subst hpe
      by_cases hprest : p ∈ rest <;>
        simp [eraseAll, ih, hprest, refLookup_refErase]
    · by_cases hprest : p ∈ rest <;>
        simp [eraseAll, ih, hprest, hpe, refLookup_refErase]

/-- blockingMapped over RemoveModule unregisters exactly the listed
locations the manager knows, leaving the others untouched. -/
theorem refLookup_runRemoveModules (l : List String) (mgr : RefMap)
    (p : String) :
    refLookup (runRemoveModules l mgr) p =
      if p ∈ l then none else refLookup mgr p := by
  induction l generalizing mgr with
  | nil => simp [runRemoveModules]
  | cons e rest ih =>
    have hstep : refLookup (RemoveModule mgr e).2 p =
        if p = e then none else refLookup mgr p := by
      cases hme : refLookup mgr e with
      | none =>
        by_cases hpe : p = e <;> simp [RemoveModule, hme, hpe]
      | some h =>
        simp [RemoveModule, hme, refLookup_refErase]
    by_cases hpe : p = e
    · subst hpe
      by_cases hprest : p ∈ rest <;>
        simp [runRemoveModules, ih, hprest, hstep]
    · by_cases hprest : p ∈ rest <;>
        simp [runRemoveModules, ih, hprest, hpe, hstep]

/-- loadModules returns the per-element registration outcomes in input
order. -/
theorem loadModules_fst (o : RegisterOracle) (l : List String)
    (st : WatcherState) : (loadModules o l st).1 = l.map o := by
  simp [loadModules, runAddModules_fst]

/-- loadModules does not touch the watched path sets. -/
theorem loadModules_watchedPaths (o : RegisterOracle) (l : List String)
    (st : WatcherState) :
    (loadModules o l st).2.watchedDirs = st.watchedDirs ∧
      (loadModules o l st).2.watchedFiles = st.watchedFiles := by
  simp [loadModules]

/-- Lookup in MapFileNameToReference after loadModules: a successful batch
member gets the new reference. -/
theorem loadModules_lookup_some (o : RegisterOracle) (l : List String)
    (st : WatcherState) (p : String) (h : ModuleRef) (hp : p ∈ l)
    (ho : o p = some h) :
    refLookup (loadModules o l st).2.MapFileNameToReference p = some h := by
  simp only [loadModules, runAddModules_fst]
  exact applyLoads_some o l _ p h hp ho

/-- Lookup in MapFileNameToReference after loadModules: a failed attempt
leaves the entry of that location exactly as it was. -/
theorem loadModules_lookup_none (o : RegisterOracle) (l : List String)
    (st : WatcherState) (p : String) (ho : o p = none) :
    refLookup (loadModules o l st).2.MapFileNameToReference p =
      refLookup st.MapFileNameToReference p := by
  simp only [loadModules, runAddModules_fst]
  exact applyLoads_none o l _ p ho

/-- Lookup in MapFileNameToReference after loadModules: locations outside
the batch are untouched. -/
theorem loadModules_lookup_not_mem (o : RegisterOracle) (l : List String)
    (st : WatcherState) (p : String) (hp : p ∉ l) :
    refLookup (loadModules o l st).2.MapFileNameToReference p =
      refLookup st.MapFileNameToReference p := by
  simp only [loadModules, runAddModules_fst]
  exact applyLoads_not_mem o l _ p hp

/-- unloadModules does not touch the watched path sets. -/
theorem unloadModules_watchedPaths (l : List String) (st : WatcherState) :
    (unloadModules l st).watchedDirs = st.watchedDirs ∧
      (unloadModules l st).watchedFiles = st.watchedFiles := by
  simp [unloadModules]

/-- Lookup in MapFileNameToReference after unloadModules. -/
theorem unloadModules_lookup (l : List String) (st : WatcherState)
    (p : String) :
    refLookup (unloadModules l st).MapFileNameToReference p =
      if p ∈ l then none else refLookup st.MapFileNameToReference p := by
  simp [unloadModules, refLookup_eraseAll]

/-- Lookup in the manager map after unloadModules. -/
theorem unloadModules_manager_lookup (l : List String) (st : WatcherState)
    (p : String) :
    refLookup (unloadModules l st).managerModules p =
      if p ∈ l then none else refLookup st.managerModules p := by
  simp [unloadModules, refLookup_runRemoveModules]

/-- Membership in a conditional list that defaults to empty. -/
theorem mem_ite_nil_list {c : Prop} [Decidable c] (l : List String)
    (e : String) : (e ∈ if c then l else []) ↔ c ∧ e ∈ l := by
  by_cases h : c <;> simp [h]

/-- Membership in a conditional list. -/
theorem mem_ite_list {c : Prop} [Decidable c] (l1 l2 : List String)
    (e : String) :
    (e ∈ if c then l1 else l2) ↔ (c ∧ e ∈ l1) ∨ (¬c ∧ e ∈ l2) := by
  by_cases h : c <;> simp [h]

/-- Characterization of the tracked files extracted for one directory: the
directory must still exist on disk, and the files are exactly the tracked
keys whose parent directory is that directory. -/
theorem mem_extract_iff (fs : FileSystem) (st : WatcherState)
    (path f : String) :
    f ∈ extractCurrentlyWatchedFilenamesInDirectory fs st path ↔
      fs.dirExists path = true ∧ f ∈ refKeys st.MapFileNameToReference ∧
        fs.parentDir f = path := by
  cases h : fs.dirExists path <;>
    simp [extractCurrentlyWatchedFilenamesInDirectory, h, List.mem_filter]

/-- Membership in the unload batch computed by setModuleReferences. -/
theorem mem_diff_unload_iff (fs : FileSystem) (st : WatcherState)
    (dirs : List String) (e : String) :
    e ∈ (moduleReferencesDiff fs st dirs).1 ↔
      (∃ d, d ∈ st.watchedDirs ∧ d ∉ dirs ∧
        e ∈ extractCurrentlyWatchedFilenamesInDirectory fs st d) ∨
      (∃ d, d ∈ dirs ∧ d ∈ st.watchedDirs ∧
        e ∈ extractCurrentlyWatchedFilenamesInDirectory fs st d ∧
        e ∉ getExecutablesInDirectory fs d) := by
  simp only [moduleReferencesDiff, List.mem_append, List.mem_flatMap,
    List.mem_filter, mem_ite_nil_list, List.elem_eq_mem, Bool.not_eq_true',
    decide_eq_false_iff_not, List.mem_filter, Bool.and_eq_true,
    decide_eq_true_eq]
  aesop

/-- Membership in the load batch computed by setModuleReferences. -/
theorem mem_diff_load_iff (fs : FileSystem) (st : WatcherState)
    (dirs : List String) (e : String) :
    e ∈ (moduleReferencesDiff fs st dirs).2 ↔
      ∃ d, d ∈ dirs ∧
        ((d ∈ st.watchedDirs ∧ e ∈ getExecutablesInDirectory fs d ∧
          e ∉ extractCurrentlyWatchedFilenamesInDirectory fs st d) ∨
        (d ∉ st.watchedDirs ∧ e ∈ getExecutablesInDirectory fs d)) := by
  simp only [moduleReferencesDiff, List.mem_flatMap, mem_ite_list,
    List.mem_filter, List.elem_eq_mem, Bool.not_eq_true',
    decide_eq_false_iff_not, Bool.and_eq_true, decide_eq_true_eq]

/-- setModuleReferences does not touch the watched path sets. -/
theorem setModuleReferences_watchedPaths (fs : FileSystem)
    (o : RegisterOracle) (dirs : List String) (st : WatcherState) :
    (setModuleReferences fs o dirs st).watchedDirs = st.watchedDirs ∧
      (setModuleReferences fs o dirs st).watchedFiles = st.watchedFiles := by
  simp [setModuleReferences, loadModules, unloadModules]

/-- After setDirectories the watched directory set is the filtered valid
directory list. -/
theorem setDirectories_watchedDirs (fs : FileSystem) (o : RegisterOracle)
    (D : List String) (st : WatcherState) :
    (setDirectories fs o D st).watchedDirs =
      filterInvalidDirectories fs D := by
  simp [setDirectories, updateWatchedPaths]

/-- After setDirectories the watched file set is the key set of
MapFileNameToReference. -/
theorem setDirectories_watchedFiles (fs : FileSystem) (o : RegisterOracle)
    (D : List String) (st : WatcherState) :
    (setDirectories fs o D st).watchedFiles =
      refKeys (setDirectories fs o D st).MapFileNameToReference := by
  simp [setDirectories, updateWatchedPaths]

/-- Claim C10: loadModules returns exactly one result per input path in
input order, so a non-empty input yields a non-empty result, and the front
element onFileChanged reads from the result of its one-element batch
always exists (it is the outcome for that path). -/
theorem claim_C10 :
    (∀ (o : RegisterOracle) (l : List String) (st : WatcherState),
      (loadModules o l st).1.length = l.length) ∧
    (∀ (o : RegisterOracle) (p : String) (st : WatcherState),
      onFileChangedFront o p st = some (o p)) := by
  constructor
  · intro o l st
    simp [loadModules_fst]
  · intro o p st
    simp [onFileChangedFront, loadModules_fst]

/-- Claim C6: registration attempts of a load batch are independent: the
returned list is the pointwise oracle outcome in input order, a failure for
one path resolves to no handle for it and does not affect the others, only
successes populate MapFileNameToReference, and failed or absent paths keep
their previous entry. -/
theorem claim_C6 (o : RegisterOracle) (l : List String) (st : WatcherState)
    (p : String) :
    (loadModules o l st).1 = l.map o ∧
    (∀ h : ModuleRef, p ∈ l → o p = some h →
      refLookup (loadModules o l st).2.MapFileNameToReference p = some h) ∧
    (o p = none →
      refLookup (loadModules o l st).2.MapFileNameToReference p =
        refLookup st.MapFileNameToReference p) ∧
    (p ∉ l →
      refLookup (loadModules o l st).2.MapFileNameToReference p =
        refLookup st.MapFileNameToReference p) := by
  refine ⟨loadModules_fst o l st, ?_, ?_, ?_⟩
  · intro h hp ho
    exact loadModules_lookup_some o l st p h hp ho
  · intro ho
    exact loadModules_lookup_none o l st p ho
  · intro hp
    exact loadModules_lookup_not_mem o l st p hp

/-- A state with nothing watched, nothing tracked and nothing registered. -/
def stEmpty : WatcherState := ⟨[], [], [], []⟩

/-- Oracle that fails on the first file of a batch and succeeds on the
second. -/
def oW6 : RegisterOracle := fun s => if s = "A/y" then some 2 else none

/-- Witness for C6 at a two-element batch whose first registration fails:
the second file still registers, the first resolves to no entry. -/
theorem claim_C6_witness :
    refLookup
      (loadModules oW6 ["A/x", "A/y"] stEmpty).2.MapFileNameToReference
      "A/y" = some 2 ∧
    refLookup
      (loadModules oW6 ["A/x", "A/y"] stEmpty).2.MapFileNameToReference
      "A/x" = none :=
  ⟨(claim_C6 oW6 ["A/x", "A/y"] stEmpty "A/y").2.1 2 (by decide) (by decide),
   ((claim_C6 oW6 ["A/x", "A/y"] stEmpty "A/x").2.2.1 (by decide)).trans rfl⟩

/-- Claim C9: a load batch never removes a tracked entry: every key of
MapFileNameToReference before the call is still a key after it, and a
failed registration leaves any pre-existing entry for that path exactly as
it was. -/
theorem claim_C9 (o : RegisterOracle) (l : List String) (st : WatcherState)
    (p : String) :
    (p ∈ refKeys st.MapFileNameToReference →
      p ∈ refKeys (loadModules o l st).2.MapFileNameToReference) ∧
    (o p = none →
      refLookup (loadModules o l st).2.MapFileNameToReference p =
        refLookup st.MapFileNameToReference p) := by
  constructor
  · intro hp
    rw [← refLookup_isSome_iff] at hp ⊢
    by_cases hmem : p ∈ l
    · cases ho : o p with
      | none => rw [loadModules_lookup_none o l st p ho]; exact hp
      | some h => rw [loadModules_lookup_some o l st p h hmem ho]; rfl
    · rw [loadModules_lookup_not_mem o l st p hmem]; exact hp
  · intro ho
    exact loadModules_lookup_none o l st p ho

/-- Oracle that always fails. -/
def oFail : RegisterOracle := fun _ => none

/-- A state tracking one file of one watched directory. -/
def stW9 : WatcherState := ⟨["A"], ["A/x"], [("A/x", 1)], [("A/x", 1)]⟩

/-- Witness for C9: reloading a tracked file with a failing oracle keeps it
tracked with its old handle. -/
theorem claim_C9_witness :
    "A/x" ∈
      refKeys (loadModules oFail ["A/x"] stW9).2.MapFileNameToReference :=
  (claim_C9 oFail ["A/x"] stW9 "A/x").1 (by decide)

/-- Claim C1 counterexample: a file-changed event whose re-registration
fails leaves the old entry in place: the path stays tracked with the stale
handle, it does not become untracked as claimed. -/
theorem claim_C1_counterexample :
    oFail "A/x" = none ∧
    refLookup stW9.MapFileNameToReference "A/x" = some 1 ∧
    refLookup (onFileChanged oFail "A/x" stW9).MapFileNameToReference
      "A/x" = some 1 := by
  refine ⟨rfl, by decide, by decide⟩

/-- Claim C1 amended: a file-changed event dispatches a load for exactly
that single path; when the registration succeeds the entry for the path is
overwritten with the new handle; when it fails MapFileNameToReference is
left entirely unchanged, so a prior entry keeps its old handle and an
untracked path stays untracked. -/
theorem claim_C1 (o : RegisterOracle) (p : String) (st : WatcherState) :
    onFileChanged o p st = (loadModules o [p] st).2 ∧
    (∀ h : ModuleRef, o p = some h →
      refLookup (onFileChanged o p st).MapFileNameToReference p = some h) ∧
    (o p = none →
      (onFileChanged o p st).MapFileNameToReference =
        st.MapFileNameToReference) := by
  refine ⟨rfl, ?_, ?_⟩
  · intro h ho
    exact loadModules_lookup_some o [p] st p h (by simp) ho
  · intro ho
    simp [onFileChanged, loadModules, runAddModules, AddModule, ho,
      applyLoads]

/-- Oracle that succeeds on the reloaded file with a fresh handle. -/
def oW1 : RegisterOracle := fun s => if s = "A/x" then some 7 else none

/-- Witness for C1 amended: successful reload overwrites the entry. -/
theorem claim_C1_witness :
    refLookup (onFileChanged oW1 "A/x" stW9).MapFileNameToReference
      "A/x" = some 7 :=
  (claim_C1 oW1 "A/x" stW9).2.1 7 (by decide)

/-- Claim C7 amended: for every unload batch, a path in the batch ends up
absent from the manager (it is unregistered exactly when the manager
itself still has a reference for it, a decision keyed on the manager
lookup rather than on MapFileNameToReference) and absent from
MapFileNameToReference regardless of the manager outcome; a path outside
the batch is untouched in both maps. -/
theorem claim_C7 (l : List String) (st : WatcherState) (p : String) :
    (p ∈ l →
      refLookup (unloadModules l st).MapFileNameToReference p = none ∧
      refLookup (unloadModules l st).managerModules p = none) ∧
    (p ∉ l →
      refLookup (unloadModules l st).MapFileNameToReference p =
        refLookup st.MapFileNameToReference p ∧
      refLookup (unloadModules l st).managerModules p =
        refLookup st.managerModules p) := by
  constructor
  · intro hp
    rw [unloadModules_lookup, unloadModules_manager_lookup]
    simp [hp]
  · intro hp
    rw [unloadModules_lookup, unloadModules_manager_lookup]
    simp [hp]

/-- A state where the manager knows a module the watcher does not track. -/
def stC7 : WatcherState := ⟨[], [], [], [("p", 5)]⟩

/-- Claim C7 counterexample: a batch path without a tracked entry is not a
no-op on the manager: the manager still has a reference for it, so
RemoveModule unregisters it. -/
theorem claim_C7_counterexample :
    refLookup stC7.MapFileNameToReference "p" = none ∧
    refLookup stC7.managerModules "p" = some 5 ∧
    refLookup (unloadModules ["p"] stC7).managerModules "p" = none := by
  refine ⟨rfl, by decide, by decide⟩

/-- A state tracking one file that the manager also knows. -/
def stW7 : WatcherState := ⟨["A"], ["A/q"], [("A/q", 3)], [("A/q", 3)]⟩

/-- Witness for C7 amended: unloading a tracked path removes it from both
the watcher map and the manager. -/
theorem claim_C7_witness :
    refLookup (unloadModules ["A/q"] stW7).MapFileNameToReference "A/q" =
      none ∧
    refLookup (unloadModules ["A/q"] stW7).managerModules "A/q" = none :=
  (claim_C7 ["A/q"] stW7 "A/q").1 (by decide)

/-- Oracle used for the C3 counterexample: the changed file registers. -/
def oC3 : RegisterOracle := fun s => if s = "A/x" then some 1 else none

/-- A state watching one directory with no tracked files. -/
def stC3 : WatcherState := ⟨["A"], [], [], []⟩

/-- Claim C3 counterexample: a file-changed event changes the key set of
MapFileNameToReference without replacing the subscription, so the
subscribed path set no longer equals the union of the watched directories
and the tracked file keys. -/
theorem claim_C3_counterexample :
    "A/x" ∈
      refKeys (onFileChanged oC3 "A/x" stC3).MapFileNameToReference ∧
    "A/x" ∉ (onFileChanged oC3 "A/x" stC3).watchedDirs ++
      (onFileChanged oC3 "A/x" stC3).watchedFiles := by
  decide

/-- Claim C3 amended: the subscription is fully replaced only by
setDirectories: after it the subscribed paths are exactly the new valid
directory list plus the key set of MapFileNameToReference; the
file-changed and directory-changed handlers mutate MapFileNameToReference
without touching the subscribed path sets. -/
theorem claim_C3 :
    (∀ (fs : FileSystem) (o : RegisterOracle) (D : List String)
        (st : WatcherState),
      (setDirectories fs o D st).watchedDirs =
        filterInvalidDirectories fs D ∧
      (setDirectories fs o D st).watchedFiles =
        refKeys (setDirectories fs o D st).MapFileNameToReference) ∧
    (∀ (o : RegisterOracle) (p : String) (st : WatcherState),
      (onFileChanged o p st).watchedDirs = st.watchedDirs ∧
      (onFileChanged o p st).watchedFiles = st.watchedFiles) ∧
    (∀ (fs : FileSystem) (o : RegisterOracle) (p : String)
        (st : WatcherState),
      (onDirectoryChanged fs o p st).watchedDirs = st.watchedDirs ∧
      (onDirectoryChanged fs o p st).watchedFiles = st.watchedFiles) := by
  refine ⟨fun fs o D st => ⟨setDirectories_watchedDirs fs o D st,
    setDirectories_watchedFiles fs o D st⟩, ?_, ?_⟩
  · intro o p st
    exact loadModules_watchedPaths o [p] st
  · intro fs o p st
    by_cases h : (filterInvalidDirectories fs [p]).length > 0
    · simp only [onDirectoryChanged, if_pos h, updateModuleReferences]
      exact setModuleReferences_watchedPaths fs o _ st
    · simp [onDirectoryChanged, h]

/-- Filesystem for the C2 counterexample: directory A exists and is
empty. -/
def fsC2 : FileSystem := ⟨fun d => d == "A", fun _ => [], fun _ => ""⟩

/-- Claim C2 counterexample: a directory-changed event for a valid
directory that is not yet watched completes with the watched directory set
still not containing the path, because targeted reconciliation never
updates the watched directory set. -/
theorem claim_C2_counterexample :
    filterInvalidDirectories fsC2 ["A"] = ["A"] ∧
    "A" ∉ (onDirectoryChanged fsC2 oFail "A" stEmpty).watchedDirs := by
  decide

/-- Claim C2 amended: targeted reconciliation treats a not-yet-watched
directory as newly watched for the diff of that call (the directory list
handed to setModuleReferences contains the path), but it leaves the
watched directory set itself unchanged, so afterwards the set contains
the path exactly when it already did before; in particular an
already-watched directory is still watched. -/
theorem claim_C2 (fs : FileSystem) (o : RegisterOracle) (path : String)
    (st : WatcherState) :
    path ∈ updateModuleReferencesDirs st path ∧
    (updateModuleReferences fs o path st).watchedDirs = st.watchedDirs ∧
    (path ∈ st.watchedDirs →
      path ∈ (updateModuleReferences fs o path st).watchedDirs) := by
  refine ⟨?_, ?_, ?_⟩
  · by_cases h : path ∈ st.watchedDirs <;>
      simp [updateModuleReferencesDirs, List.elem_eq_mem, h]
  · exact (setModuleReferences_watchedPaths fs o _ st).1
  · intro h
    have hd := (setModuleReferences_watchedPaths fs o
      (updateModuleReferencesDirs st path) st).1
    simpa [updateModuleReferences, hd] using h

/-- A state already watching directory A. -/
def stW2 : WatcherState := ⟨["A"], [], [], []⟩

/-- Witness for C2 amended: a directory-changed reconciliation for an
already-watched directory leaves it watched. -/
theorem claim_C2_witness :
    "A" ∈ (updateModuleReferences fsC2 oFail "A" stW2).watchedDirs :=
  (claim_C2 fsC2 oFail "A" stW2).2.2 (by decide)

/-- Claim C4: for a watched directory A tracking exactly files x and y,
with y gone from disk and every other watched directory unchanged, a
directory-changed event for A dispatches a pass whose unload batch
contains y and nothing but y and whose load batch is empty; afterwards y
is untracked, every other path (x and the files of every other directory)
keeps its entry unchanged, and x is still tracked. -/
theorem claim_C4 (fs : FileSystem) (o : RegisterOracle) (st : WatcherState)
    (A x y : String)
    (hvalid : filterInvalidDirectories fs [A] = [A])
    (hmem : A ∈ st.watchedDirs)
    (htrk : extractCurrentlyWatchedFilenamesInDirectory fs st A = [x, y])
    (hscan : getExecutablesInDirectory fs A = [x])
    (hxy : x ≠ y)
    (hconv : ∀ d ∈ st.watchedDirs, d ≠ A →
      extractCurrentlyWatchedFilenamesInDirectory fs st d =
        getExecutablesInDirectory fs d) :
    (∀ e ∈ (moduleReferencesDiff fs st st.watchedDirs).1, e = y) ∧
    y ∈ (moduleReferencesDiff fs st st.watchedDirs).1 ∧
    (moduleReferencesDiff fs st st.watchedDirs).2 = [] ∧
    refLookup (onDirectoryChanged fs o A st).MapFileNameToReference y =
      none ∧
    (∀ p, p ≠ y →
      refLookup (onDirectoryChanged fs o A st).MapFileNameToReference p =
        refLookup st.MapFileNameToReference p) ∧
    x ∈ refKeys (onDirectoryChanged fs o A st).MapFileNameToReference := by
  have hdirs : updateModuleReferencesDirs st A = st.watchedDirs := by
    simp [updateModuleReferencesDirs, List.elem_eq_mem, hmem]
  have hlen : (filterInvalidDirectories fs [A]).length > 0 := by
    rw [hvalid]; simp
  have hstep : onDirectoryChanged fs o A st =
      setModuleReferences fs o st.watchedDirs st := by
    rw [onDirectoryChanged, if_pos hlen, updateModuleReferences, hdirs]
  have hU : ∀ e ∈ (moduleReferencesDiff fs st st.watchedDirs).1, e = y := by
    intro e he
    rcases (mem_diff_unload_iff fs st st.watchedDirs e).mp he with
      ⟨d, hd, hnd, _⟩ | ⟨d, _, hdw, hex, hnexec⟩
    · exact absurd hd hnd
    · by_cases hdA : d = A
      · subst hdA
        rw [htrk] at hex
        simp at hex
        rcases hex with h1 | h1
        · exfalso; apply hnexec; rw [hscan, h1]; simp
        · exact h1
      · rw [hconv d hdw hdA] at hex
        exact absurd hex hnexec
  have hyU : y ∈ (moduleReferencesDiff fs st st.watchedDirs).1 := by
    apply (mem_diff_unload_iff fs st st.watchedDirs y).mpr
    refine Or.inr ⟨A, hmem, hmem, ?_, ?_⟩
    · rw [htrk]; simp
    · rw [hscan]; simp [Ne.symm hxy]
  have hL : (moduleReferencesDiff fs st st.watchedDirs).2 = [] := by
    rw [List.eq_nil_iff_forall_not_mem]
    intro e he
    rcases (mem_diff_load_iff fs st st.watchedDirs e).mp he with
      ⟨d, hd, ⟨hdw, hexec, hnex⟩ | ⟨hdnw, _⟩⟩
    · by_cases hdA : d = A
      · subst hdA
        rw [hscan] at hexec
        simp at hexec
        subst hexec
        apply hnex
        rw [htrk]; simp
      · rw [← hconv d hd hdA] at hexec
        exact absurd hexec hnex
    · exact absurd hd hdnw
  have hst' : onDirectoryChanged fs o A st =
      (loadModules o (moduleReferencesDiff fs st st.watchedDirs).2
        (unloadModules (moduleReferencesDiff fs st st.watchedDirs).1
          st)).2 := by
    rw [hstep]; rfl
  have hlookupY :
      refLookup (onDirectoryChanged fs o A st).MapFileNameToReference y =
        none := by
    rw [hst', hL, loadModules_lookup_not_mem _ _ _ _ (by simp),
      unloadModules_lookup]
    simp [hyU]
  have hlookupOther : ∀ p, p ≠ y →
      refLookup (onDirectoryChanged fs o A st).MapFileNameToReference p =
        refLookup st.MapFileNameToReference p := by
    intro p hp
    have hpU : p ∉ (moduleReferencesDiff fs st st.watchedDirs).1 :=
      fun h => hp (hU p h)
    rw [hst', hL, loadModules_lookup_not_mem _ _ _ _ (by simp),
      unloadModules_lookup]
    simp [hpU]
  refine ⟨hU, hyU, hL, hlookupY, hlookupOther, ?_⟩
  have hxkeys : x ∈ refKeys st.MapFileNameToReference := by
    have hx : x ∈ extractCurrentlyWatchedFilenamesInDirectory fs st A := by
      rw [htrk]; simp
    exact ((mem_extract_iff fs st A x).mp hx).2.1
  rw [← refLookup_isSome_iff, hlookupOther x hxy, refLookup_isSome_iff]
  exact hxkeys

/-- Filesystem for the C4 witness: directories A and B, where A has lost
the executable A/y and B is unchanged. -/
def fsW4 : FileSystem :=
  ⟨fun d => d == "A" || d == "B",
   fun d => if d = "A" then ["A/x"] else if d = "B" then ["B/z"] else [],
   fun f => if f = "B/z" then "B" else if f = "" then "" else "A"⟩

/-- A state tracking A/x and A/y under directory A and B/z under B. -/
def stW4 : WatcherState :=
  ⟨["A", "B"], ["A/x", "A/y", "B/z"],
   [("A/x", 1), ("A/y", 2), ("B/z", 3)],
   [("A/x", 1), ("A/y", 2), ("B/z", 3)]⟩

/-- Witness for C4 at a concrete two-directory state: the vanished file is
unloaded, its sibling stays tracked, and the file of the other directory
keeps its entry. -/
theorem claim_C4_witness :
    refLookup (onDirectoryChanged fsW4 oFail "A" stW4).MapFileNameToReference
      "A/y" = none ∧
    "A/x" ∈
      refKeys
        (onDirectoryChanged fsW4 oFail "A" stW4).MapFileNameToReference ∧
    refLookup (onDirectoryChanged fsW4 oFail "A" stW4).MapFileNameToReference
      "B/z" = some 3 := by
  have h := claim_C4 fsW4 oFail stW4 "A" "A/x" "A/y" (by decide) (by decide)
    (by decide) (by decide) (by decide) (by decide)
  refine ⟨h.2.2.2.1, h.2.2.2.2.2, ?_⟩
  rw [h.2.2.2.2.1 "B/z" (by decide)]
  decide

/-- A directory that passes the validity filter exists on disk. -/
theorem dirExists_of_mem_filterInvalidDirectories (fs : FileSystem)
    (D : List String) (d : String)
    (hd : d ∈ filterInvalidDirectories fs D) : fs.dirExists d = true := by
  simp only [filterInvalidDirectories, List.mem_filter, Bool.and_eq_true,
    Bool.not_eq_true'] at hd
  exact hd.2.2

/-- Claim C5 amended: dropping a watched directory A that still exists on
disk while keeping directory B, where A and B each track exactly one file,
unloads exactly the file of A and loads nothing; afterwards the file of A
is untracked, the file of B keeps its entry, the watched files are exactly
the file of B, and the watched directories are exactly B. A dropped
directory that no longer exists on disk keeps its tracked files instead. -/
theorem claim_C5 (fs : FileSystem) (o : RegisterOracle) (st : WatcherState)
    (A B a b : String)
    (hw : st.watchedDirs = [A, B])
    (hAB : A ≠ B) (hab : a ≠ b)
    (hkeys : refKeys st.MapFileNameToReference = [a, b])
    (hpa : fs.parentDir a = A) (hpb : fs.parentDir b = B)
    (hdA : fs.dirExists A = true)
    (hvalid : filterInvalidDirectories fs [B] = [B])
    (hscanB : getExecutablesInDirectory fs B = [b]) :
    (∀ e ∈ (setDirectoriesBatches fs st [B]).1, e = a) ∧
    a ∈ (setDirectoriesBatches fs st [B]).1 ∧
    (setDirectoriesBatches fs st [B]).2 = [] ∧
    refLookup (setDirectories fs o [B] st).MapFileNameToReference a =
      none ∧
    refLookup (setDirectories fs o [B] st).MapFileNameToReference b =
      refLookup st.MapFileNameToReference b ∧
    (∀ p, p ∈ (setDirectories fs o [B] st).watchedFiles ↔ p = b) ∧
    (setDirectories fs o [B] st).watchedDirs = [B] := by
  have hdB : fs.dirExists B = true :=
    dirExists_of_mem_filterInvalidDirectories fs [B] B
      (by rw [hvalid]; simp)
  have hbext : b ∈ extractCurrentlyWatchedFilenamesInDirectory fs st B :=
    (mem_extract_iff fs st B b).mpr ⟨hdB, by rw [hkeys]; simp, hpb⟩
  have hbatch : setDirectoriesBatches fs st [B] =
      moduleReferencesDiff fs st [B] := by
    rw [setDirectoriesBatches, hvalid]
  have hU : ∀ e ∈ (setDirectoriesBatches fs st [B]).1, e = a := by
    rw [hbatch]
    intro e he
    rcases (mem_diff_unload_iff fs st [B] e).mp he with
      ⟨d, hd, hnd, hex⟩ | ⟨d, hd, _, hex, hnexec⟩
    · rw [hw] at hd
      have hdA' : d = A := by
        rcases List.mem_pair.mp hd with h | h
        · exact h
        · exact absurd (h ▸ List.mem_singleton_self B) hnd
      rw [hdA'] at hex
      rcases (mem_extract_iff fs st A e).mp hex with ⟨_, hk, hpar⟩
      rw [hkeys] at hk
      rcases List.mem_pair.mp hk with h | h
      · exact h
      · rw [h, hpb] at hpar; exact absurd hpar (Ne.symm hAB)
    · have hdB' : d = B := List.mem_singleton.mp hd
      rw [hdB'] at hex hnexec
      rcases (mem_extract_iff fs st B e).mp hex with ⟨_, hk, hpar⟩
      rw [hkeys] at hk
      rcases List.mem_pair.mp hk with h | h
      · rw [h, hpa] at hpar; exact absurd hpar hAB
      · rw [h] at hnexec; exact absurd (by rw [hscanB]; simp) hnexec
  have haU : a ∈ (setDirectoriesBatches fs st [B]).1 := by
    rw [hbatch]
    apply (mem_diff_unload_iff fs st [B] a).mpr
    refine Or.inl ⟨A, by rw [hw]; simp, by simp [hAB], ?_⟩
    exact (mem_extract_iff fs st A a).mpr ⟨hdA, by rw [hkeys]; simp, hpa⟩
  have hL : (setDirectoriesBatches fs st [B]).2 = [] := by
    rw [hbatch, List.eq_nil_iff_forall_not_mem]
    intro e he
    rcases (mem_diff_load_iff fs st [B] e).mp he with
      ⟨d, hd, ⟨_, hexec, hnex⟩ | ⟨hdnw, _⟩⟩
    · have hdB' : d = B := List.mem_singleton.mp hd
      rw [hdB'] at hexec hnex
      rw [hscanB] at hexec
      simp at hexec
      rw [hexec] at hnex
      exact hnex hbext
    · have hdB' : d = B := List.mem_singleton.mp hd
      rw [hdB'] at hdnw
      exact hdnw (by rw [hw]; simp)
  have hmapeq : (setDirectories fs o [B] st).MapFileNameToReference =
      (loadModules o (moduleReferencesDiff fs st [B]).2
        (unloadModules (moduleReferencesDiff fs st [B]).1
          st)).2.MapFileNameToReference := by
    rw [setDirectories, hvalid]; rfl
  have hLraw : (moduleReferencesDiff fs st [B]).2 = [] := by
    rw [← hbatch]; exact hL
  have hlookupA :
      refLookup (setDirectories fs o [B] st).MapFileNameToReference a =
        none := by
    rw [hmapeq, hLraw, loadModules_lookup_not_mem _ _ _ _ (by simp),
      unloadModules_lookup]
    simp [hbatch ▸ haU]
  have hlookupOther : ∀ p, p ≠ a →
      refLookup (setDirectories fs o [B] st).MapFileNameToReference p =
        refLookup st.MapFileNameToReference p := by
    intro p hp
    have hpU : p ∉ (moduleReferencesDiff fs st [B]).1 := by
      intro h
      exact hp (hU p (by rw [hbatch]; exact h))
    rw [hmapeq, hLraw, loadModules_lookup_not_mem _ _ _ _ (by simp),
      unloadModules_lookup]
    simp [hpU]
  refine ⟨hU, haU, hL, hlookupA, hlookupOther b (Ne.symm hab), ?_, ?_⟩
  · intro p
    rw [setDirectories_watchedFiles, ← refLookup_isSome_iff]
    constructor
    · intro hsome
      by_cases hpa' : p = a
      · rw [hpa', hlookupA] at hsome; simp at hsome
      · rw [hlookupOther p hpa'] at hsome
        have : p ∈ refKeys st.MapFileNameToReference :=
          (refLookup_isSome_iff _ p).mp hsome
        rw [hkeys] at this
        rcases List.mem_pair.mp this with h | h
        · exact absurd h hpa'
        · exact h
    · intro hpb'
      rw [hpb', hlookupOther b (Ne.symm hab), refLookup_isSome_iff, hkeys]
      simp
  · rw [setDirectories_watchedDirs, hvalid]

/-- Filesystem for the C5 witness: directories A and B both exist, A holds
the executable A/x and B holds B/z. -/
def fsW5 : FileSystem :=
  ⟨fun d => d == "A" || d == "B",
   fun d => if d = "A" then ["A/x"] else if d = "B" then ["B/z"] else [],
   fun f => if f = "B/z" then "B" else "A"⟩

/-- A state watching A and B with one tracked file each. -/
def stW5 : WatcherState :=
  ⟨["A", "B"], ["A/x", "B/z"], [("A/x", 1), ("B/z", 2)],
   [("A/x", 1), ("B/z", 2)]⟩

/-- Witness for C5 amended: dropping the still-existing directory A
unloads its file and keeps the file of B as the only watched file. -/
theorem claim_C5_witness :
    refLookup (setDirectories fsW5 oFail ["B"] stW5).MapFileNameToReference
      "A/x" = none ∧
    ("B/z" ∈ (setDirectories fsW5 oFail ["B"] stW5).watchedFiles ↔
      "B/z" = "B/z") := by
  have h := claim_C5 fsW5 oFail stW5 "A" "B" "A/x" "B/z" (by decide)
    (by decide) (by decide) (by decide) (by decide) (by decide) (by decide)
    (by decide) (by decide)
  exact ⟨h.2.2.2.1, h.2.2.2.2.2.1 "B/z"⟩

/-- Filesystem for the C5 counterexample: the dropped directory A no
longer exists on disk, B exists and holds B/z. -/
def fsC5 : FileSystem :=
  ⟨fun d => d == "B",
   fun d => if d = "B" then ["B/z"] else [],
   fun f => if f = "B/z" then "B" else "A"⟩

/-- A state watching A and B with one tracked file each, used for the C5
counterexample. -/
def stC5 : WatcherState :=
  ⟨["A", "B"], ["A/x", "B/z"], [("A/x", 1), ("B/z", 2)],
   [("A/x", 1), ("B/z", 2)]⟩

/-- Claim C5 counterexample: when the dropped watched directory A no
longer exists on disk, its tracked file is not unloaded by
setDirectories to B only: the entry survives with its old handle and the
watched files afterwards are not only the file of B. -/
theorem claim_C5_counterexample :
    refLookup (setDirectories fsC5 oFail ["B"] stC5).MapFileNameToReference
      "A/x" = some 1 ∧
    "A/x" ∈ (setDirectories fsC5 oFail ["B"] stC5).watchedFiles := by
  decide

/-- The tracked map after setDirectories is the tracked map produced by
unloading then loading the batches the call computed. -/
theorem setDirectories_map (fs : FileSystem) (o : RegisterOracle)
    (D : List String) (st : WatcherState) :
    (setDirectories fs o D st).MapFileNameToReference =
      (loadModules o
        (moduleReferencesDiff fs st (filterInvalidDirectories fs D)).2
        (unloadModules
          (moduleReferencesDiff fs st (filterInvalidDirectories fs D)).1
          st)).2.MapFileNameToReference := rfl

/-- Claim C8 amended: with an unchanged filesystem, a second setDirectories
call with the same list dispatches no unload and no load operations,
provided every tracked file of the initial state lies in a watched
directory, the scanner reports only files whose parent is the scanned
directory, and every registration of the first pass succeeded; when a
registration failed, the second call instead dispatches that load again. -/
theorem claim_C8 (fs : FileSystem) (o : RegisterOracle)
    (st0 : WatcherState) (D : List String)
    (hpar : ∀ d ∈ filterInvalidDirectories fs D,
      ∀ e ∈ getExecutablesInDirectory fs d, fs.parentDir e = d)
    (hinv : ∀ k ∈ refKeys st0.MapFileNameToReference,
      fs.parentDir k ∈ st0.watchedDirs)
    (hsucc : ∀ d ∈ filterInvalidDirectories fs D,
      ∀ e ∈ getExecutablesInDirectory fs d, (o e).isSome = true) :
    setDirectoriesBatches fs (setDirectories fs o D st0) D = ([], []) := by
  have hW1 : (setDirectories fs o D st0).watchedDirs =
      filterInvalidDirectories fs D := setDirectories_watchedDirs fs o D st0
  have hkey : ∀ p d, d ∈ filterInvalidDirectories fs D →
      fs.parentDir p = d →
      ((refLookup (setDirectories fs o D st0).MapFileNameToReference
        p).isSome = true ↔ p ∈ getExecutablesInDirectory fs d) := by
    intro p d hdv hpd
    constructor
    · intro hsome
      by_cases hoL : p ∈
          (moduleReferencesDiff fs st0 (filterInvalidDirectories fs D)).2
      · rcases (mem_diff_load_iff fs st0
            (filterInvalidDirectories fs D) p).mp hoL with
          ⟨d', hd'v, ⟨_, hpe, _⟩ | ⟨_, hpe⟩⟩
        · have hp' : fs.parentDir p = d' := hpar d' hd'v p hpe
          have hdd : d' = d := by rw [← hp', hpd]
          rw [hdd] at hpe
          exact hpe
        · have hp' : fs.parentDir p = d' := hpar d' hd'v p hpe
          have hdd : d' = d := by rw [← hp', hpd]
          rw [hdd] at hpe
          exact hpe
      · rw [setDirectories_map fs o D st0,
          loadModules_lookup_not_mem _ _ _ _ hoL,
          unloadModules_lookup] at hsome
        by_cases hpU : p ∈
            (moduleReferencesDiff fs st0 (filterInvalidDirectories fs D)).1
        · rw [if_pos hpU] at hsome
          simp at hsome
        · rw [if_neg hpU] at hsome
          have hpk0 : p ∈ refKeys st0.MapFileNameToReference :=
            (refLookup_isSome_iff _ p).mp hsome
          have hdW0 : d ∈ st0.watchedDirs := by
            have hx := hinv p hpk0
            rw [hpd] at hx
            exact hx
          have hdEx : fs.dirExists d = true :=
            dirExists_of_mem_filterInvalidDirectories fs D d hdv
          have hpext0 :
              p ∈ extractCurrentlyWatchedFilenamesInDirectory fs st0 d :=
            (mem_extract_iff fs st0 d p).mpr ⟨hdEx, hpk0, hpd⟩
          by_contra hne
          exact hpU ((mem_diff_unload_iff fs st0
            (filterInvalidDirectories fs D) p).mpr
            (Or.inr ⟨d, hdv, hdW0, hpext0, hne⟩))
    · intro hpexecs
      have hsome0 := hsucc d hdv p hpexecs
      rcases Option.isSome_iff_exists.mp hsome0 with ⟨h, ho⟩
      by_cases hoL : p ∈
          (moduleReferencesDiff fs st0 (filterInvalidDirectories fs D)).2
      · rw [setDirectories_map fs o D st0,
          loadModules_lookup_some o _ _ p h hoL ho]
        rfl
      · by_cases hdW0 : d ∈ st0.watchedDirs
        · have hpext0 :
              p ∈ extractCurrentlyWatchedFilenamesInDirectory fs st0 d := by
            by_contra hpe
            exact hoL ((mem_diff_load_iff fs st0
              (filterInvalidDirectories fs D) p).mpr
              ⟨d, hdv, Or.inl ⟨hdW0, hpexecs, hpe⟩⟩)
          have hpk0 : p ∈ refKeys st0.MapFileNameToReference :=
            ((mem_extract_iff fs st0 d p).mp hpext0).2.1
          have hpU : p ∉
              (moduleReferencesDiff fs st0
                (filterInvalidDirectories fs D)).1 := by
            intro hpU
            rcases (mem_diff_unload_iff fs st0
                (filterInvalidDirectories fs D) p).mp hpU with
              ⟨d', _, hd'nv, hpext'⟩ | ⟨d', _, _, hpext', hpnexec'⟩
            · have hp' : fs.parentDir p = d' :=
                ((mem_extract_iff fs st0 d' p).mp hpext').2.2
              have hdd : d' = d := by rw [← hp', hpd]
              rw [hdd] at hd'nv
              exact hd'nv hdv
            · have hp' : fs.parentDir p = d' :=
                ((mem_extract_iff fs st0 d' p).mp hpext').2.2
              have hdd : d' = d := by rw [← hp', hpd]
              rw [hdd] at hpnexec'
              exact hpnexec' hpexecs
          rw [setDirectories_map fs o D st0,
            loadModules_lookup_not_mem _ _ _ _ hoL, unloadModules_lookup,
            if_neg hpU]
          exact (refLookup_isSome_iff _ p).mpr hpk0
        · exact absurd ((mem_diff_load_iff fs st0
            (filterInvalidDirectories fs D) p).mpr
            ⟨d, hdv, Or.inr ⟨hdW0, hpexecs⟩⟩) hoL
  have h1 : (moduleReferencesDiff fs (setDirectories fs o D st0)
      (filterInvalidDirectories fs D)).1 = [] := by
    rw [List.eq_nil_iff_forall_not_mem]
    intro e he
    rcases (mem_diff_unload_iff fs (setDirectories fs o D st0)
        (filterInvalidDirectories fs D) e).mp he with
      ⟨d, hd, hnd, _⟩ | ⟨d, hdv, _, hex, hnexec⟩
    · rw [hW1] at hd
      exact hnd hd
    · rcases (mem_extract_iff fs (setDirectories fs o D st0) d e).mp hex
        with ⟨_, hk, hpd⟩
      have hsome : (refLookup
          (setDirectories fs o D st0).MapFileNameToReference e).isSome =
          true := (refLookup_isSome_iff _ e).mpr hk
      exact hnexec ((hkey e d hdv hpd).mp hsome)
  have h2 : (moduleReferencesDiff fs (setDirectories fs o D st0)
      (filterInvalidDirectories fs D)).2 = [] := by
    rw [List.eq_nil_iff_forall_not_mem]
    intro e he
    rcases (mem_diff_load_iff fs (setDirectories fs o D st0)
        (filterInvalidDirectories fs D) e).mp he with
      ⟨d, hdv, ⟨_, hexec, hnex⟩ | ⟨hdnw, _⟩⟩
    · have hpd : fs.parentDir e = d := hpar d hdv e hexec
      have hsome := (hkey e d hdv hpd).mpr hexec
      have hk : e ∈
          refKeys (setDirectories fs o D st0).MapFileNameToReference :=
        (refLookup_isSome_iff _ e).mp hsome
      have hdEx : fs.dirExists d = true :=
        dirExists_of_mem_filterInvalidDirectories fs D d hdv
      exact hnex ((mem_extract_iff fs (setDirectories fs o D st0) d e).mpr
        ⟨hdEx, hk, hpd⟩)
    · rw [hW1] at hdnw
      exact hdnw hdv
  have hpair : setDirectoriesBatches fs (setDirectories fs o D st0) D =
      ((moduleReferencesDiff fs (setDirectories fs o D st0)
        (filterInvalidDirectories fs D)).1,
       (moduleReferencesDiff fs (setDirectories fs o D st0)
        (filterInvalidDirectories fs D)).2) := rfl
  rw [hpair, h1, h2]

/-- Filesystem with one directory A holding one executable A/x. -/
def fsA8 : FileSystem :=
  ⟨fun d => d == "A", fun d => if d = "A" then ["A/x"] else [],
   fun f => if f = "A/x" then "A" else ""⟩

/-- Oracle that registers A/x successfully. -/
def oW8 : RegisterOracle := fun s => if s = "A/x" then some 1 else none

/-- Witness for C8 amended: after a first fully successful pass, the
second identical setDirectories call computes empty batches. -/
theorem claim_C8_witness :
    setDirectoriesBatches fsA8 (setDirectories fsA8 oW8 ["A"] stEmpty)
      ["A"] = ([], []) :=
  claim_C8 fsA8 oW8 stEmpty ["A"] (by decide) (by decide) (by decide)

/-- Claim C8 counterexample: when the registration of A/x failed during
the first setDirectories call, the second identical call dispatches the
load for A/x again, so the second call is not free of load operations. -/
theorem claim_C8_counterexample :
    (setDirectoriesBatches fsA8 (setDirectories fsA8 oFail ["A"] stEmpty)
      ["A"]).2 = ["A/x"] := by
  decide

end CTKWatcher
